import Mathlib

/-!
Verification of the srvmon health and readiness aggregation core.

The definitions below are a shallow embedding of the Go package srvmon:
the Status enumeration and the CheckResult, HealthResponse and
ReadinessResponse messages, the Checker interface, the SrvMon monitor
state, and the Health and Ready evaluation loops. Within one evaluation
each registered Checker is invoked exactly once, so the behaviour of a
Checker during one evaluation is modelled as a fixed outcome: either a
CheckResult or an execution error. The sync.Once guarding the downgrade
decision in the Go loops is modelled by an explicit boolean accumulator
threaded through the fold. Timestamps are modelled as an abstract instant
passed in as a parameter. Ready is declared in Go with a named response
return and a deferred write to that response, so it is modelled in two
parts: readyBody yields the named return values, with the nil response
pointer as none, and SrvMon.Ready applies the deferred timestamp write,
which panics when the body returned a nil response.
-/

/-- Status enumeration of the protobuf: UP, DOWN, DEGRADED, UNKNOWN. -/
inductive Status where
  | up
  | down
  | degraded
  | unknown
deriving DecidableEq, Repr

/-- CheckResult message: name, status, message, optional error text and
a timestamp. -/
structure CheckResult where
  name : String
  status : Status
  message : String
  error : String
  timestamp : Nat
deriving DecidableEq, Repr

deriving instance DecidableEq for Except

/-- The Checker interface. MustOK reports whether the dependency is
critical; Check performs the probe and either returns a CheckResult or
fails with an execution error (modelled as the error message). -/
structure Checker where
  MustOK : Bool
  Check : Except String CheckResult
deriving DecidableEq, Repr

/-- HealthResponse message: aggregate status, version, the ordered list
of per-dependency results, and a timestamp. -/
structure HealthResponse where
  status : Status
  version : String
  checks : List CheckResult
  timestamp : Nat
deriving DecidableEq, Repr

/-- ReadinessResponse message: ready flag, reason, the ordered list of
per-dependency results, and a timestamp. -/
structure ReadinessResponse where
  ready : Bool
  reason : String
  checks : List CheckResult
  timestamp : Nat
deriving DecidableEq, Repr

/-- The SrvMon monitor state relevant to aggregation: the ordered list of
registered Checkers, the version string and the atomic readiness flag.
Listen addresses and the logger play no role in the aggregation. -/
structure SrvMon where
  dependencies : List Checker
  version : String
  ready : Bool
deriving DecidableEq, Repr

/-- The constructor New: the dependency list is taken from the argument
and the atomic readiness flag starts at its zero value, false. -/
def SrvMon.New (version : String) (dependencies : List Checker) : SrvMon :=
  { dependencies := dependencies, version := version, ready := false }

/-- AddDependencies appends further Checkers to the registered list. -/
def SrvMon.AddDependencies (m : SrvMon) (dependency : List Checker) : SrvMon :=
  { m with dependencies := m.dependencies ++ dependency }

/-- SetReady performs CompareAndSwap(false, true) on the readiness flag:
when the flag is false it becomes true, otherwise it is left unchanged. -/
def SrvMon.SetReady (m : SrvMon) : SrvMon :=
  { m with ready := if m.ready = false then true else m.ready }

/-- The loop body of Health. The accumulators mirror the Go locals:
st is resp.Status (initialised to UP by the caller), once mirrors the
sync.Once that guards the downgrade decision, acc is resp.Checks. Each
Checker is invoked in registration order; an execution error aborts the
whole evaluation; every returned CheckResult is appended; on a DOWN
result, if the once has not fired, the verdict is downgraded to DOWN for
a critical Checker and to DEGRADED otherwise. -/
def healthLoop : List Checker → Status → Bool → List CheckResult →
    Except String (Status × List CheckResult)
  | [], st, _, acc => Except.ok (st, acc)
  | dep :: rest, st, once, acc =>
    match dep.Check with
    | Except.error e => Except.error ("dependency check: " ++ e)
    | Except.ok check =>
      if check.status ≠ Status.down then
        healthLoop rest st once (acc ++ [check])
      else if dep.MustOK then
        if once then healthLoop rest st once (acc ++ [check])
        else healthLoop rest Status.down true (acc ++ [check])
      else
        if once then healthLoop rest st once (acc ++ [check])
        else healthLoop rest Status.degraded true (acc ++ [check])

/-- Health: run the loop over the registered Checkers starting from
verdict UP, and package the outcome with the version and the timestamp.
An execution error from any Check aborts the evaluation: no response is
produced and the error is surfaced to the caller. -/
def SrvMon.Health (m : SrvMon) (now : Nat) : Except String HealthResponse :=
  match healthLoop m.dependencies Status.up false [] with
  | Except.error e => Except.error e
  | Except.ok (st, checks) =>
    Except.ok { status := st, version := m.version, checks := checks, timestamp := now }

/-- The loop body of Ready. The accumulators mirror the Go locals: rd is
resp.Ready, rs is resp.Reason, once mirrors the sync.Once, acc is
resp.Checks. A DOWN result from a critical Checker, when the once has not
fired, sets ready to false and the reason to that result message; DOWN
results from non-critical Checkers change nothing. -/
def readyLoop : List Checker → Bool → String → Bool → List CheckResult →
    Except String (Bool × String × List CheckResult)
  | [], rd, rs, _, acc => Except.ok (rd, rs, acc)
  | dep :: rest, rd, rs, once, acc =>
    match dep.Check with
    | Except.error e => Except.error ("dependency check: " ++ e)
    | Except.ok check =>
      if check.status ≠ Status.down then
        readyLoop rest rd rs once (acc ++ [check])
      else if dep.MustOK then
        if once then readyLoop rest rd rs once (acc ++ [check])
        else readyLoop rest false check.message true (acc ++ [check])
      else
        readyLoop rest rd rs once (acc ++ [check])

/-- Outcome of a call to the Go Ready method as its caller observes it:
either a returned ReadinessResponse or a runtime panic. The Go method is
declared with a named response return and a deferred write to it, so the
deferred write runs on every return path and a path that returns a nil
response pointer panics instead of returning. -/
inductive ReadyOutcome where
  | returns (resp : ReadinessResponse)
  | panics (msg : String)
deriving DecidableEq, Repr

/-- The body of Ready up to, but not including, the deferred timestamp
write: the pair of named return values (resp, error). The named response
pointer is modelled as an Option, none standing for nil. When the
readiness flag is false the body returns the fixed not-ready response,
invoking no Checker; otherwise it sets ready to true tentatively and runs
the loop; a Check execution error makes the body return (nil, the error).
The timestamp field holds its zero value here: the deferred write is the
only place that assigns it. -/
def readyBody (m : SrvMon) : Option ReadinessResponse × Option String :=
  if m.ready = false then
    (some { ready := false, reason := "service is not ready", checks := [], timestamp := 0 },
      none)
  else
    match readyLoop m.dependencies true "" false [] with
    | Except.error e => (none, some e)
    | Except.ok (rd, rs, checks) =>
      (some { ready := rd, reason := rs, checks := checks, timestamp := 0 }, none)

/-- Ready: run the body, then the deferred assignment of resp.Timestamp.
On a normal return the deferred write stamps the response and the caller
receives it. On the Check-error path the body has assigned nil to the
named response, so the deferred write dereferences a nil pointer and the
call panics: the error value never reaches the caller. -/
def SrvMon.Ready (m : SrvMon) (now : Nat) : ReadyOutcome :=
  match readyBody m with
  | (none, _) =>
    ReadyOutcome.panics "runtime error: invalid memory address or nil pointer dereference"
  | (some resp, _) => ReadyOutcome.returns { resp with timestamp := now }

/-- A CheckResult with status UP, used in concrete witnesses. -/
def upResult : CheckResult :=
  { name := "redis", status := Status.up, message := "connection successful",
    error := "", timestamp := 0 }

/-- A CheckResult with status DOWN, used in concrete witnesses. -/
def downResult : CheckResult :=
  { name := "external-api", status := Status.down, message := "connection failed",
    error := "dial tcp: connection refused", timestamp := 0 }

/-- A CheckResult with status UNKNOWN, used in concrete witnesses. -/
def unknownResult : CheckResult :=
  { name := "metrics", status := Status.unknown, message := "state unknown",
    error := "", timestamp := 0 }

/-- A Checker that succeeds with an UP result. -/
def upChecker : Checker := { MustOK := false, Check := Except.ok upResult }

/-- A critical Checker that succeeds with a DOWN result. -/
def critDownChecker : Checker := { MustOK := true, Check := Except.ok downResult }

/-- A non-critical Checker that succeeds with a DOWN result. -/
def nonCritDownChecker : Checker := { MustOK := false, Check := Except.ok downResult }

/-- A Checker whose Check fails with an execution error. -/
def errChecker : Checker := { MustOK := true, Check := Except.error "boom" }

/-- A critical Checker that succeeds with an UNKNOWN result. -/
def unknownChecker : Checker := { MustOK := true, Check := Except.ok unknownResult }

/-- The Health response of a monitor holding the UNKNOWN Checker and the
UP Checker, used in a concrete witness. -/
def mixedResp : HealthResponse :=
  { status := Status.up, version := "1.0.0",
    checks := [unknownResult, upResult], timestamp := 0 }

/-- A successful head step of the Health loop recurses on the tail with the
result appended, for some updated verdict and once flag; the updated verdict
is the old one, DOWN, or DEGRADED. -/
theorem healthLoop_cons_ok (dep : Checker) (rest : List Checker) (check : CheckResult)
    (hc : dep.Check = Except.ok check) (st : Status) (once : Bool) (acc : List CheckResult) :
    ∃ st2 once2, (st2 = st ∨ st2 = Status.down ∨ st2 = Status.degraded) ∧
      healthLoop (dep :: rest) st once acc = healthLoop rest st2 once2 (acc ++ [check]) := by
  rw [healthLoop, hc]
  by_cases hs : check.status = Status.down
  · by_cases hm : dep.MustOK
    · by_cases ho : once
      · exact ⟨st, once, Or.inl rfl, by simp [hs, hm, ho]⟩
      · exact ⟨Status.down, true, Or.inr (Or.inl rfl), by simp [hs, hm, ho]⟩
    · by_cases ho : once
      · exact ⟨st, once, Or.inl rfl, by simp [hs, hm, ho]⟩
      · exact ⟨Status.degraded, true, Or.inr (Or.inr rfl), by simp [hs, hm, ho]⟩
  · exact ⟨st, once, Or.inl rfl, by simp [hs]⟩

/-- Once the downgrade decision has fired, the Health loop never changes the
verdict again. -/
theorem healthLoop_frozen :
    ∀ (deps : List Checker) (st : Status) (acc : List CheckResult)
      (st' : Status) (acc' : List CheckResult),
      healthLoop deps st true acc = Except.ok (st', acc') → st' = st := by
  intro deps
  induction deps with
  | nil =>
    intro st acc st' acc' h
    simp [healthLoop] at h
    exact h.1.symm
  | cons dep rest ih =>
    intro st acc st' acc' h
    cases hc : dep.Check with
    | error e =>
      rw [healthLoop, hc] at h
      simp at h
    | ok check =>
      rw [healthLoop, hc] at h
      by_cases hs : check.status = Status.down
      · by_cases hm : dep.MustOK
        · simp [hs, hm] at h
          exact ih _ _ _ _ h
        · simp [hs, hm] at h
          exact ih _ _ _ _ h
      · simp [hs] at h
        exact ih _ _ _ _ h

/-- When the Health loop returns a response, the accumulator has grown by
exactly one CheckResult per Checker, in order, each produced by the
corresponding Check. -/
theorem healthLoop_results :
    ∀ (deps : List Checker) (st : Status) (once : Bool) (acc : List CheckResult)
      (st' : Status) (acc' : List CheckResult),
      healthLoop deps st once acc = Except.ok (st', acc') →
      ∃ res, acc' = acc ++ res ∧
        List.Forall₂ (fun dep cr => dep.Check = Except.ok cr) deps res := by
  intro deps
  induction deps with
  | nil =>
    intro st once acc st' acc' h
    simp [healthLoop] at h
    exact ⟨[], by simp [h.2.symm], List.Forall₂.nil⟩
  | cons dep rest ih =>
    intro st once acc st' acc' h
    cases hc : dep.Check with
    | error e =>
      rw [healthLoop, hc] at h
      simp at h
    | ok check =>
      obtain ⟨st2, once2, _, heq⟩ := healthLoop_cons_ok dep rest check hc st once acc
      rw [heq] at h
      obtain ⟨res, hacc, hall⟩ := ih _ _ _ _ _ h
      exact ⟨check :: res, by simp [hacc], List.Forall₂.cons hc hall⟩

/-- A prefix of Checkers that all succeed with non-DOWN results passes
through the Health loop leaving verdict and once flag untouched. -/
theorem healthLoop_skip :
    ∀ (pre rest : List Checker),
      (∀ dep ∈ pre, ∃ cr, dep.Check = Except.ok cr ∧ cr.status ≠ Status.down) →
      ∀ (st : Status) (once : Bool) (acc : List CheckResult),
      ∃ acc2, healthLoop (pre ++ rest) st once acc = healthLoop rest st once acc2 := by
  intro pre
  induction pre with
  | nil =>
    intro rest _ st once acc
    exact ⟨acc, rfl⟩
  | cons dep pre ih =>
    intro rest h st once acc
    obtain ⟨cr, hc, hs⟩ := h dep (List.mem_cons_self _ _)
    obtain ⟨acc2, heq⟩ := ih rest (fun d hd => h d (List.mem_cons_of_mem _ hd)) st once (acc ++ [cr])
    refine ⟨acc2, ?_⟩
    rw [List.cons_append, healthLoop, hc]
    simpa [hs] using heq

/-- An execution error from any registered Checker makes the Health loop
return an error. -/
theorem healthLoop_error :
    ∀ (deps : List Checker), (∃ dep ∈ deps, ∃ e, dep.Check = Except.error e) →
      ∀ (st : Status) (once : Bool) (acc : List CheckResult),
      ∃ err, healthLoop deps st once acc = Except.error err := by
  intro deps
  induction deps with
  | nil =>
    intro h
    simp at h
  | cons dep rest ih =>
    rintro ⟨d, hd, e, he⟩ st once acc
    cases hc : dep.Check with
    | error e2 =>
      exact ⟨"dependency check: " ++ e2, by rw [healthLoop, hc]⟩
    | ok check =>
      have hdrest : d ∈ rest := by
        rcases List.mem_cons.mp hd with h1 | h1
        · subst h1
          rw [hc] at he
          exact absurd he (by simp)
        · exact h1
      obtain ⟨st2, once2, _, heq⟩ := healthLoop_cons_ok dep rest check hc st once acc
      obtain ⟨err, herr⟩ := ih ⟨d, hdrest, e, he⟩ st2 once2 (acc ++ [check])
      exact ⟨err, heq.trans herr⟩

/-- When every Checker succeeds with an UP result, the Health loop keeps
the incoming verdict and appends only UP results. -/
theorem healthLoop_all_up :
    ∀ (deps : List Checker),
      (∀ dep ∈ deps, ∃ cr, dep.Check = Except.ok cr ∧ cr.status = Status.up) →
      ∀ (st : Status) (once : Bool) (acc : List CheckResult),
      ∃ res, healthLoop deps st once acc = Except.ok (st, acc ++ res) ∧
        ∀ c ∈ res, c.status = Status.up := by
  intro deps
  induction deps with
  | nil =>
    intro _ st once acc
    exact ⟨[], by simp [healthLoop], by simp⟩
  | cons dep rest ih =>
    intro h st once acc
    obtain ⟨cr, hc, hup⟩ := h dep (List.mem_cons_self _ _)
    obtain ⟨res, hloop, hall⟩ := ih (fun d hd => h d (List.mem_cons_of_mem _ hd)) st once (acc ++ [cr])
    refine ⟨cr :: res, ?_, ?_⟩
    · rw [healthLoop, hc]
      have hs : cr.status ≠ Status.down := by rw [hup]; simp
      simpa [hs] using hloop
    · intro c hcmem
      rcases List.mem_cons.mp hcmem with h1 | h1
      · rw [h1, hup]
      · exact hall c h1

/-- The verdict returned by the Health loop is the incoming one, DOWN, or
DEGRADED. -/
theorem healthLoop_status_cases :
    ∀ (deps : List Checker) (st : Status) (once : Bool) (acc : List CheckResult)
      (st' : Status) (acc' : List CheckResult),
      healthLoop deps st once acc = Except.ok (st', acc') →
      st' = st ∨ st' = Status.down ∨ st' = Status.degraded := by
  intro deps
  induction deps with
  | nil =>
    intro st once acc st' acc' h
    simp [healthLoop] at h
    exact Or.inl h.1.symm
  | cons dep rest ih =>
    intro st once acc st' acc' h
    cases hc : dep.Check with
    | error e =>
      rw [healthLoop, hc] at h
      simp at h
    | ok check =>
      obtain ⟨st2, once2, hst2, heq⟩ := healthLoop_cons_ok dep rest check hc st once acc
      rw [heq] at h
      rcases ih _ _ _ _ _ h with h1 | h1 | h1
      · rw [h1]
        exact hst2
      · exact Or.inr (Or.inl h1)
      · exact Or.inr (Or.inr h1)

/-- If no CheckResult in the returned list has status DOWN, the Health loop
returns the incoming verdict unchanged: only a DOWN result downgrades. -/
theorem healthLoop_no_down :
    ∀ (deps : List Checker) (st : Status) (once : Bool) (acc : List CheckResult)
      (st' : Status) (acc' : List CheckResult),
      healthLoop deps st once acc = Except.ok (st', acc') →
      (∀ c ∈ acc', c.status ≠ Status.down) → st' = st := by
  intro deps
  induction deps with
  | nil =>
    intro st once acc st' acc' h _
    simp [healthLoop] at h
    exact h.1.symm
  | cons dep rest ih =>
    intro st once acc st' acc' h hnd
    cases hc : dep.Check with
    | error e =>
      rw [healthLoop, hc] at h
      simp at h
    | ok check =>
      by_cases hs : check.status = Status.down
      · obtain ⟨st2, once2, _, heq⟩ := healthLoop_cons_ok dep rest check hc st once acc
        rw [heq] at h
        obtain ⟨res, hacc, _⟩ := healthLoop_results _ _ _ _ _ _ h
        exact absurd hs (hnd check (by simp [hacc]))
      · rw [healthLoop, hc] at h
        simp [hs] at h
        exact ih _ _ _ _ _ h hnd

/-- A successful head step of the Ready loop recurses on the tail with the
result appended, for some updated ready flag, reason and once flag. -/
theorem readyLoop_cons_ok (dep : Checker) (rest : List Checker) (check : CheckResult)
    (hc : dep.Check = Except.ok check) (rd : Bool) (rs : String) (once : Bool)
    (acc : List CheckResult) :
    ∃ rd2 rs2 once2,
      readyLoop (dep :: rest) rd rs once acc = readyLoop rest rd2 rs2 once2 (acc ++ [check]) := by
  rw [readyLoop, hc]
  by_cases hs : check.status = Status.down
  · by_cases hm : dep.MustOK
    · by_cases ho : once
      · exact ⟨rd, rs, once, by simp [hs, hm, ho]⟩
      · exact ⟨false, check.message, true, by simp [hs, hm, ho]⟩
    · exact ⟨rd, rs, once, by simp [hs, hm]⟩
  · exact ⟨rd, rs, once, by simp [hs]⟩

/-- Once the downgrade decision has fired, the Ready loop never changes the
ready flag or the reason again. -/
theorem readyLoop_frozen :
    ∀ (deps : List Checker) (rd : Bool) (rs : String) (acc : List CheckResult)
      (rd' : Bool) (rs' : String) (acc' : List CheckResult),
      readyLoop deps rd rs true acc = Except.ok (rd', rs', acc') → rd' = rd ∧ rs' = rs := by
  intro deps
  induction deps with
  | nil =>
    intro rd rs acc rd' rs' acc' h
    simp [readyLoop] at h
    exact ⟨h.1.symm, h.2.1.symm⟩
  | cons dep rest ih =>
    intro rd rs acc rd' rs' acc' h
    cases hc : dep.Check with
    | error e =>
      rw [readyLoop, hc] at h
      simp at h
    | ok check =>
      rw [readyLoop, hc] at h
      by_cases hs : check.status = Status.down
      · by_cases hm : dep.MustOK
        · simp [hs, hm] at h
          exact ih _ _ _ _ _ _ h
        · simp [hs, hm] at h
          exact ih _ _ _ _ _ _ h
      · simp [hs] at h
        exact ih _ _ _ _ _ _ h

/-- When the Ready loop returns a response, the accumulator has grown by
exactly one CheckResult per Checker, in order, each produced by the
corresponding Check. -/
theorem readyLoop_results :
    ∀ (deps : List Checker) (rd : Bool) (rs : String) (once : Bool) (acc : List CheckResult)
      (rd' : Bool) (rs' : String) (acc' : List CheckResult),
      readyLoop deps rd rs once acc = Except.ok (rd', rs', acc') →
      ∃ res, acc' = acc ++ res ∧
        List.Forall₂ (fun dep cr => dep.Check = Except.ok cr) deps res := by
  intro deps
  induction deps with
  | nil =>
    intro rd rs once acc rd' rs' acc' h
    simp [readyLoop] at h
    exact ⟨[], by simp [h.2.2.symm], List.Forall₂.nil⟩
  | cons dep rest ih =>
    intro rd rs once acc rd' rs' acc' h
    cases hc : dep.Check with
    | error e =>
      rw [readyLoop, hc] at h
      simp at h
    | ok check =>
      obtain ⟨rd2, rs2, once2, heq⟩ := readyLoop_cons_ok dep rest check hc rd rs once acc
      rw [heq] at h
      obtain ⟨res, hacc, hall⟩ := ih _ _ _ _ _ _ _ h
      exact ⟨check :: res, by simp [hacc], List.Forall₂.cons hc hall⟩

/-- A prefix of Checkers that all succeed, each one either not DOWN or not
critical, passes through the Ready loop leaving ready flag, reason and once
flag untouched. -/
theorem readyLoop_skip :
    ∀ (pre rest : List Checker),
      (∀ dep ∈ pre, ∃ cr, dep.Check = Except.ok cr ∧
        (cr.status ≠ Status.down ∨ dep.MustOK = false)) →
      ∀ (rd : Bool) (rs : String) (once : Bool) (acc : List CheckResult),
      ∃ acc2, readyLoop (pre ++ rest) rd rs once acc = readyLoop rest rd rs once acc2 := by
  intro pre
  induction pre with
  | nil =>
    intro rest _ rd rs once acc
    exact ⟨acc, rfl⟩
  | cons dep pre ih =>
    intro rest h rd rs once acc
    obtain ⟨cr, hc, hor⟩ := h dep (List.mem_cons_self _ _)
    obtain ⟨acc2, heq⟩ := ih rest (fun d hd => h d (List.mem_cons_of_mem _ hd)) rd rs once (acc ++ [cr])
    refine ⟨acc2, ?_⟩
    rw [List.cons_append, readyLoop, hc]
    rcases hor with hs | hm
    · simpa [hs] using heq
    · by_cases hs : cr.status = Status.down
      · simpa [hs, hm] using heq
      · simpa [hs] using heq

/-- An execution error from any registered Checker makes the Ready loop
return an error. -/
theorem readyLoop_error :
    ∀ (deps : List Checker), (∃ dep ∈ deps, ∃ e, dep.Check = Except.error e) →
      ∀ (rd : Bool) (rs : String) (once : Bool) (acc : List CheckResult),
      ∃ err, readyLoop deps rd rs once acc = Except.error err := by
  intro deps
  induction deps with
  | nil =>
    intro h
    simp at h
  | cons dep rest ih =>
    rintro ⟨d, hd, e, he⟩ rd rs once acc
    cases hc : dep.Check with
    | error e2 =>
      exact ⟨"dependency check: " ++ e2, by rw [readyLoop, hc]⟩
    | ok check =>
      have hdrest : d ∈ rest := by
        rcases List.mem_cons.mp hd with h1 | h1
        · subst h1
          rw [hc] at he
          exact absurd he (by simp)
        · exact h1
      obtain ⟨rd2, rs2, once2, heq⟩ := readyLoop_cons_ok dep rest check hc rd rs once acc
      obtain ⟨err, herr⟩ := ih ⟨d, hdrest, e, he⟩ rd2 rs2 once2 (acc ++ [check])
      exact ⟨err, heq.trans herr⟩

/-- C1: whenever the first Checker in registration order whose CheckResult
has status DOWN is critical, Health returns a response with status DOWN,
and no later CheckResult, critical or not, changes that verdict: the
downgrade decision fires at most once, at the first DOWN result. -/
theorem health_first_down_critical (m : SrvMon) (now : Nat)
    (pre post : List Checker) (d : Checker) (r : CheckResult)
    (hdeps : m.dependencies = pre ++ d :: post)
    (hpre : ∀ dep ∈ pre, ∃ cr, dep.Check = Except.ok cr ∧ cr.status ≠ Status.down)
    (hd : d.Check = Except.ok r) (hr : r.status = Status.down)
    (hcrit : d.MustOK = true)
    (resp : HealthResponse) (hok : m.Health now = Except.ok resp) :
    resp.status = Status.down := by
  unfold SrvMon.Health at hok
  rw [hdeps] at hok
  obtain ⟨acc2, heq⟩ := healthLoop_skip pre (d :: post) hpre Status.up false []
  rw [heq] at hok
  have hstep : healthLoop (d :: post) Status.up false acc2 =
      healthLoop post Status.down true (acc2 ++ [r]) := by
    rw [healthLoop, hd]
    simp [hr, hcrit]
  rw [hstep] at hok
  cases hres : healthLoop post Status.down true (acc2 ++ [r]) with
  | error e =>
    rw [hres] at hok
    simp at hok
  | ok p =>
    obtain ⟨st', acc'⟩ := p
    rw [hres] at hok
    have hst : st' = Status.down := healthLoop_frozen post Status.down (acc2 ++ [r]) st' acc' hres
    simp at hok
    rw [← hok]
    exact hst

/-- Witness for C1: a monitor whose Checkers report UP, then DOWN critical,
then DOWN non-critical yields a Health verdict of DOWN. -/
theorem health_first_down_critical_witness :
    ({ status := Status.down, version := "1.0.0",
       checks := [upResult, downResult, downResult],
       timestamp := 0 } : HealthResponse).status = Status.down :=
  health_first_down_critical
    (SrvMon.New "1.0.0" [upChecker, critDownChecker, nonCritDownChecker]) 0
    [upChecker] [nonCritDownChecker] critDownChecker downResult rfl
    (by
      intro dep hdep
      have hd : dep = upChecker := by simpa using hdep
      exact ⟨upResult, by rw [hd]; rfl, by decide⟩)
    rfl rfl rfl _ (by decide)

/-- C2: whenever the first CheckResult with status DOWN in registration
order belongs to a non-critical Checker, Health returns a response with
status DEGRADED, even when a critical Checker later in the order is also
DOWN. -/
theorem health_first_down_noncritical (m : SrvMon) (now : Nat)
    (pre post : List Checker) (d : Checker) (r : CheckResult)
    (hdeps : m.dependencies = pre ++ d :: post)
    (hpre : ∀ dep ∈ pre, ∃ cr, dep.Check = Except.ok cr ∧ cr.status ≠ Status.down)
    (hd : d.Check = Except.ok r) (hr : r.status = Status.down)
    (hcrit : d.MustOK = false)
    (resp : HealthResponse) (hok : m.Health now = Except.ok resp) :
    resp.status = Status.degraded := by
  unfold SrvMon.Health at hok
  rw [hdeps] at hok
  obtain ⟨acc2, heq⟩ := healthLoop_skip pre (d :: post) hpre Status.up false []
  rw [heq] at hok
  have hstep : healthLoop (d :: post) Status.up false acc2 =
      healthLoop post Status.degraded true (acc2 ++ [r]) := by
    rw [healthLoop, hd]
    simp [hr, hcrit]
  rw [hstep] at hok
  cases hres : healthLoop post Status.degraded true (acc2 ++ [r]) with
  | error e =>
    rw [hres] at hok
    simp at hok
  | ok p =>
    obtain ⟨st', acc'⟩ := p
    rw [hres] at hok
    have hst : st' = Status.degraded :=
      healthLoop_frozen post Status.degraded (acc2 ++ [r]) st' acc' hres
    simp at hok
    rw [← hok]
    exact hst

/-- Witness for C2: a monitor whose Checkers report UP, then DOWN
non-critical, then DOWN critical yields a Health verdict of DEGRADED. -/
theorem health_first_down_noncritical_witness :
    ({ status := Status.degraded, version := "1.0.0",
       checks := [upResult, downResult, downResult],
       timestamp := 0 } : HealthResponse).status = Status.degraded :=
  health_first_down_noncritical
    (SrvMon.New "1.0.0" [upChecker, nonCritDownChecker, critDownChecker]) 0
    [upChecker] [critDownChecker] nonCritDownChecker downResult rfl
    (by
      intro dep hdep
      have hd : dep = upChecker := by simpa using hdep
      exact ⟨upResult, by rw [hd]; rfl, by decide⟩)
    rfl rfl rfl _ (by decide)

/-- C3: the claim, like the spec, says a Check execution error during a
Ready evaluation makes Ready return a failure to the caller, but the Go
method panics on that path: the error return assigns nil to the named
response and the deferred timestamp write then dereferences the nil
pointer. Evaluated at a concrete failing input, a ready monitor whose
second Checker fails with an execution error: the body produces the error
value, yet the call panics and the caller never receives it. -/
theorem ready_error_panics :
    ((SrvMon.New "1.0.0" [upChecker, errChecker]).SetReady).Ready 0 =
      ReadyOutcome.panics "runtime error: invalid memory address or nil pointer dereference" ∧
    readyBody ((SrvMon.New "1.0.0" [upChecker, errChecker]).SetReady) =
      (none, some "dependency check: boom") := by
  decide

/-- C4: when some Check call fails with an execution error, Health aborts
the whole evaluation and surfaces the error: no partial response is
returned. Health reads the monitor state and never mutates it, so the
state is unchanged on the error path by construction. -/
theorem health_error_aborts (m : SrvMon) (now : Nat)
    (h : ∃ dep ∈ m.dependencies, ∃ e, dep.Check = Except.error e) :
    ∃ err, m.Health now = Except.error err := by
  obtain ⟨err, herr⟩ := healthLoop_error m.dependencies h Status.up false []
  refine ⟨err, ?_⟩
  unfold SrvMon.Health
  simp [herr]

/-- Witness for C4: a monitor with a Checker that fails with an execution
error makes Health return an error. -/
theorem health_error_aborts_witness :
    ∃ err, (SrvMon.New "1.0.0" [upChecker, errChecker]).Health 0 = Except.error err :=
  health_error_aborts (SrvMon.New "1.0.0" [upChecker, errChecker]) 0
    ⟨errChecker, by decide, "boom", rfl⟩

/-- C5: after SetReady, when a critical Checker returns a DOWN result and
every earlier Checker succeeds with a result that is either not DOWN or
comes from a non-critical Checker, Ready reports ready false with reason
equal to the message of that first critical DOWN result; DOWN results from
non-critical Checkers never change ready or reason. -/
theorem ready_first_critical_down (m : SrvMon) (now : Nat)
    (hready : m.ready = true)
    (pre post : List Checker) (d : Checker) (r : CheckResult)
    (hdeps : m.dependencies = pre ++ d :: post)
    (hpre : ∀ dep ∈ pre, ∃ cr, dep.Check = Except.ok cr ∧
      (cr.status ≠ Status.down ∨ dep.MustOK = false))
    (hd : d.Check = Except.ok r) (hr : r.status = Status.down)
    (hcrit : d.MustOK = true)
    (resp : ReadinessResponse) (hok : m.Ready now = ReadyOutcome.returns resp) :
    resp.ready = false ∧ resp.reason = r.message := by
  unfold SrvMon.Ready readyBody at hok
  rw [hready] at hok
  simp only [Bool.true_eq_false, if_false] at hok
  rw [hdeps] at hok
  obtain ⟨acc2, heq⟩ := readyLoop_skip pre (d :: post) hpre true "" false []
  rw [heq] at hok
  have hstep : readyLoop (d :: post) true "" false acc2 =
      readyLoop post false r.message true (acc2 ++ [r]) := by
    rw [readyLoop, hd]
    simp [hr, hcrit]
  rw [hstep] at hok
  cases hres : readyLoop post false r.message true (acc2 ++ [r]) with
  | error e =>
    rw [hres] at hok
    simp at hok
  | ok p =>
    obtain ⟨rd', rs', acc'⟩ := p
    rw [hres] at hok
    have hfr : rd' = false ∧ rs' = r.message :=
      readyLoop_frozen post false r.message (acc2 ++ [r]) rd' rs' acc' hres
    simp at hok
    rw [← hok]
    exact hfr

/-- Witness for C5: a ready monitor whose Checkers report DOWN
non-critical, then DOWN critical, then UP yields ready false with the
message of the critical DOWN result as reason. -/
theorem ready_first_critical_down_witness :
    ({ ready := false, reason := "connection failed",
       checks := [downResult, downResult, upResult],
       timestamp := 0 } : ReadinessResponse).ready = false ∧
    ({ ready := false, reason := "connection failed",
       checks := [downResult, downResult, upResult],
       timestamp := 0 } : ReadinessResponse).reason = downResult.message :=
  ready_first_critical_down
    ((SrvMon.New "1.0.0" [nonCritDownChecker, critDownChecker, upChecker]).SetReady) 0 rfl
    [nonCritDownChecker] [upChecker] critDownChecker downResult rfl
    (by
      intro dep hdep
      have hd : dep = nonCritDownChecker := by simpa using hdep
      exact ⟨downResult, by rw [hd]; rfl, Or.inr (by rw [hd]; rfl)⟩)
    rfl rfl rfl _ (by decide)

/-- C6: while the readiness flag is false, Ready returns ready false with
reason "service is not ready" and an empty checks list; the result does
not depend on the registered Checkers, so no Check is invoked. -/
theorem ready_before_setready (m : SrvMon) (now : Nat) (h : m.ready = false) :
    m.Ready now = ReadyOutcome.returns { ready := false, reason := "service is not ready",
                                         checks := [], timestamp := now } ∧
    ∀ deps : List Checker,
      SrvMon.Ready { m with dependencies := deps } now = m.Ready now := by
  constructor
  · unfold SrvMon.Ready readyBody
    simp [h]
  · intro deps
    unfold SrvMon.Ready readyBody
    simp [h]

/-- Witness for C6: a freshly constructed monitor holding a Checker whose
Check would fail still answers Ready with the fixed not-ready response. -/
theorem ready_before_setready_witness :
    (SrvMon.New "1.0.0" [errChecker]).Ready 0 =
      ReadyOutcome.returns { ready := false, reason := "service is not ready",
                             checks := [], timestamp := 0 } :=
  (ready_before_setready (SrvMon.New "1.0.0" [errChecker]) 0 rfl).1

/-- C7: the readiness flag is monotonic: New creates it false, SetReady
leaves it true, a second SetReady is a no-op, and AddDependencies, the
only other state-changing operation, preserves the flag. No operation of
the monitor ever resets the flag to false. -/
theorem readiness_flag_monotonic :
    (∀ (version : String) (deps : List Checker), (SrvMon.New version deps).ready = false) ∧
    (∀ m : SrvMon, m.SetReady.ready = true) ∧
    (∀ m : SrvMon, m.SetReady.SetReady = m.SetReady) ∧
    (∀ (m : SrvMon) (deps : List Checker), (m.AddDependencies deps).ready = m.ready) := by
  refine ⟨fun _ _ => rfl, fun m => ?_, fun m => ?_, fun _ _ => rfl⟩
  · unfold SrvMon.SetReady
    cases hm : m.ready <;> simp [hm]
  · unfold SrvMon.SetReady
    cases hm : m.ready <;> simp [hm]

/-- C8 counterexample: a monitor with one registered Checker whose Check
succeeds, before SetReady, produces a ReadinessResponse with an empty
checks list although no Check call fails, so a produced response does not
always contain one CheckResult per registered Checker. -/
theorem response_checks_counterexample :
    (SrvMon.New "1.0.0" [upChecker]).Ready 0 =
      ReadyOutcome.returns { ready := false, reason := "service is not ready",
                             checks := [], timestamp := 0 } ∧
    (SrvMon.New "1.0.0" [upChecker]).dependencies.length = 1 ∧
    upChecker.Check = Except.ok upResult := by
  decide

/-- C8 amended: every produced HealthResponse, and every ReadinessResponse
produced while the readiness flag is true, carries exactly one CheckResult
per registered Checker, in registration order, each produced by the
corresponding Check; a ReadinessResponse produced while the flag is false
carries an empty checks list. -/
theorem response_checks_one_per_checker (m : SrvMon) (now : Nat) :
    (∀ resp : HealthResponse, m.Health now = Except.ok resp →
      List.Forall₂ (fun dep cr => dep.Check = Except.ok cr) m.dependencies resp.checks) ∧
    (m.ready = true → ∀ resp : ReadinessResponse, m.Ready now = ReadyOutcome.returns resp →
      List.Forall₂ (fun dep cr => dep.Check = Except.ok cr) m.dependencies resp.checks) ∧
    (m.ready = false → ∀ resp : ReadinessResponse, m.Ready now = ReadyOutcome.returns resp →
      resp.checks = []) := by
  refine ⟨?_, ?_, ?_⟩
  · intro resp hok
    unfold SrvMon.Health at hok
    cases hres : healthLoop m.dependencies Status.up false [] with
    | error e =>
      rw [hres] at hok
      simp at hok
    | ok p =>
      obtain ⟨st', acc'⟩ := p
      rw [hres] at hok
      obtain ⟨res, hacc, hall⟩ := healthLoop_results _ _ _ _ _ _ hres
      simp at hok
      rw [← hok]
      simpa [hacc] using hall
  · intro hready resp hok
    unfold SrvMon.Ready readyBody at hok
    rw [hready] at hok
    simp only [Bool.true_eq_false, if_false] at hok
    cases hres : readyLoop m.dependencies true "" false [] with
    | error e =>
      rw [hres] at hok
      simp at hok
    | ok p =>
      obtain ⟨rd', rs', acc'⟩ := p
      rw [hres] at hok
      obtain ⟨res, hacc, hall⟩ := readyLoop_results _ _ _ _ _ _ _ _ hres
      simp at hok
      rw [← hok]
      simpa [hacc] using hall
  · intro hready resp hok
    unfold SrvMon.Ready readyBody at hok
    rw [hready] at hok
    simp at hok
    rw [← hok]

/-- Witness for the amended C8: Health over an UP Checker followed by a
critical DOWN Checker pairs the dependencies with exactly their two
results, in order. -/
theorem response_checks_one_per_checker_witness :
    List.Forall₂ (fun dep cr => dep.Check = Except.ok cr)
      (SrvMon.New "1.0.0" [upChecker, critDownChecker]).dependencies
      [upResult, downResult] :=
  (response_checks_one_per_checker (SrvMon.New "1.0.0" [upChecker, critDownChecker]) 0).1
    { status := Status.down, version := "1.0.0",
      checks := [upResult, downResult], timestamp := 0 }
    (by decide)

/-- C9: when every registered Checker succeeds with an UP result, including
the case of no registered Checkers, Health returns a response whose status
is UP and all of whose CheckResults have status UP. -/
theorem health_all_up (m : SrvMon) (now : Nat)
    (h : ∀ dep ∈ m.dependencies, ∃ cr, dep.Check = Except.ok cr ∧ cr.status = Status.up) :
    ∃ resp, m.Health now = Except.ok resp ∧ resp.status = Status.up ∧
      ∀ c ∈ resp.checks, c.status = Status.up := by
  obtain ⟨res, hloop, hup⟩ := healthLoop_all_up m.dependencies h Status.up false []
  refine ⟨{ status := Status.up, version := m.version, checks := res, timestamp := now },
    ?_, rfl, hup⟩
  unfold SrvMon.Health
  rw [hloop]
  simp

/-- Witness for C9: a monitor with a single UP Checker yields an
all-UP Health response. -/
theorem health_all_up_witness :
    ∃ resp, (SrvMon.New "1.0.0" [upChecker]).Health 0 = Except.ok resp ∧
      resp.status = Status.up ∧ ∀ c ∈ resp.checks, c.status = Status.up :=
  health_all_up (SrvMon.New "1.0.0" [upChecker]) 0
    (by
      intro dep hdep
      have hd : dep = upChecker := by simpa [SrvMon.New] using hdep
      exact ⟨upResult, by rw [hd]; rfl, rfl⟩)

/-- C10: the aggregate status of any produced HealthResponse is UP, DOWN
or DEGRADED, never UNKNOWN; and when no appended CheckResult has status
DOWN, among them any UNKNOWN results, the verdict stays at its initial
value UP: only a DOWN result downgrades it. -/
theorem health_status_never_unknown (m : SrvMon) (now : Nat)
    (resp : HealthResponse) (hok : m.Health now = Except.ok resp) :
    (resp.status = Status.up ∨ resp.status = Status.down ∨
      resp.status = Status.degraded) ∧
    ((∀ c ∈ resp.checks, c.status ≠ Status.down) → resp.status = Status.up) := by
  unfold SrvMon.Health at hok
  cases hres : healthLoop m.dependencies Status.up false [] with
  | error e =>
    rw [hres] at hok
    simp at hok
  | ok p =>
    obtain ⟨st', acc'⟩ := p
    rw [hres] at hok
    simp at hok
    constructor
    · rw [← hok]
      exact healthLoop_status_cases _ _ _ _ _ _ hres
    · intro hnd
      rw [← hok]
      refine healthLoop_no_down _ _ _ _ _ _ hres ?_
      intro c hc
      refine hnd c ?_
      rw [← hok]
      exact hc

/-- Witness for C10: a monitor with a critical UNKNOWN Checker and a
non-critical UP Checker yields a Health response whose status is UP, and
its status is forced to UP since no result is DOWN. -/
theorem health_status_never_unknown_witness :
    (mixedResp.status = Status.up ∨ mixedResp.status = Status.down ∨
      mixedResp.status = Status.degraded) ∧
    ((∀ c ∈ mixedResp.checks, c.status ≠ Status.down) → mixedResp.status = Status.up) :=
  health_status_never_unknown (SrvMon.New "1.0.0" [unknownChecker, upChecker]) 0
    mixedResp (by decide)
